import Mathlib

/-!
Shallow embedding of the core logic of `src/nvc_cli.c` from
morphis/libnvidia-container: the device selector (`select_gpu_devices`),
the requirement predicates and evaluation loop, the `--require` option
handling of `configure_parser`, and the resource and mount discipline of
`configure_command`.
-/

set_option autoImplicit false

namespace NvcCli

/-- One GPU device as returned by the discovery layer (`struct nvc_device`):
only the `uuid` field is consulted by the code under study. -/
structure NvcDevice where
  uuid : String
deriving Repr, DecidableEq

/-- The selection buffer `const struct nvc_device *selected[]`: entry `i`
is `none` when `selected[i] == NULL`, and `some k` when `selected[i]`
points at `&available[k]`. -/
abbrev Selection := List (Option Nat)

/-- ASCII lower-casing as C `tolower` in the default locale. -/
def asciiLower (c : Char) : Char :=
  if 65 ≤ c.toNat ∧ c.toNat ≤ 90 then Char.ofNat (c.toNat + 32) else c

/-- Case-insensitive equality of two C strings (`strcasecmp(a, b) == 0`). -/
def ciEq : List Char → List Char → Bool
  | [], [] => true
  | [], _ :: _ => false
  | _ :: _, [] => false
  | a :: as, b :: bs => asciiLower a = asciiLower b && ciEq as bs

/-- Test `strncasecmp(s, p, strlen(p)) == 0`: `p` is a case-insensitive
prefix of `s`. -/
def ciPfx : List Char → List Char → Bool
  | [], _ => true
  | _ :: _, [] => false
  | p :: ps, s :: ss => asciiLower p = asciiLower s && ciPfx ps ss

/-- C `isspace` in the default locale: space (32) or `\t \n \v \f \r`
(9–13). -/
def isSpaceC (c : Char) : Bool :=
  c.toNat = 32 || (9 ≤ c.toNat && c.toNat ≤ 13)

/-- C `isdigit`: `'0'` (48) through `'9'` (57). -/
def isDigitC (c : Char) : Bool :=
  48 ≤ c.toNat && c.toNat ≤ 57

/-- Numeric value of a string of decimal digits. -/
def digitsVal (ds : List Char) : Nat :=
  ds.foldl (fun acc c => acc * 10 + (c.toNat - 48)) 0

/-- Value of `LONG_MAX` on an LP64 platform. -/
def longMax : Int := 2 ^ 63 - 1

/-- Value of `LONG_MIN` on an LP64 platform. -/
def longMin : Int := -(2 ^ 63)

/-- Model of `strtol(s, &endptr, 10)`: skip leading whitespace, one optional sign,
then decimal digits; the result is clamped to `[LONG_MIN, LONG_MAX]` on
overflow. Returns the value and the remaining characters (`endptr`); if no
digit is consumed, no conversion is performed and `endptr` is the original
string. -/
def strtol10 (s : List Char) : Int × List Char :=
  let s1 := s.dropWhile isSpaceC
  let neg : Bool := s1.head? = some '-'
  let s2 := if s1.head? = some '+' ∨ s1.head? = some '-' then s1.tail else s1
  let digs := s2.takeWhile isDigitC
  let rest := s2.dropWhile isDigitC
  if digs = [] then (0, s)
  else
    let v : Int := if neg then -(digitsVal digs : Int) else (digitsVal digs : Int)
    (max longMin (min v longMax), rest)

/-- Splitting a character list at every occurrence of a separator, the
way repeated `strsep` calls cut a C string: `n` separators yield `n + 1`
fields, empty fields included. -/
def splitSep (sep : Char) : List Char → List (List Char)
  | [] => [[]]
  | c :: rest =>
    if c = sep then [] :: splitSep sep rest
    else
      match splitSep sep rest with
      | t :: ts => (c :: t) :: ts
      | [] => [[c]]

/-- The `strsep`-style tokenisation of the devices string on `','`; a `NULL`
devices string yields no token at all. -/
def strsepTokens : Option String → List String
  | none => []
  | some s => (splitSep ',' s.data).map String.mk

/-- Write `selected[n] = &available[n]`. -/
def markAt (sel : Selection) (n : Nat) : Selection := sel.set n (some n)

/-- The `"all"` branch: `for (i = 0; i < size; ++i) selected[i] = &available[i];`. -/
def setAll (sel : Selection) (size : Nat) : Selection :=
  (List.range size).foldl (fun s i => markAt s i) sel

/-- The UUID search loop: first index `i < size` (counting from `i0`) with
`strncasecmp(available[i].uuid, gpu, strlen(gpu)) == 0`. -/
def findUuidMatch (gpu : List Char) : List NvcDevice → Nat → Option Nat
  | [], _ => none
  | d :: ds, i => if ciPfx gpu d.uuid.data then some i else findUuidMatch gpu ds (i + 1)

/-- Outcome of processing one token of the device spec. -/
inductive StepOut where
  /-- fall through to the next token -/
  | cont (sel : Selection)
  /-- the `break` after the `"all"` branch -/
  | stop (sel : Selection)
  /-- `error_setx(err, "unknown device id: %s", gpu); return (-1);` -/
  | fail (msg : String)
deriving Repr, DecidableEq

/-- The body of the `while ((gpu = strsep(&devs, ",")) != NULL)` loop of
`select_gpu_devices`, for one token `gpu`. -/
def selectStep (available : List NvcDevice) (sel : Selection) (gpu : String) : StepOut :=
  if gpu = "" then .cont sel
  else if ciEq gpu.data "all".data then .stop (setAll sel available.length)
  else if ciPfx "GPU-".data gpu.data then
    match findUuidMatch gpu.data available 0 with
    | some i => .cont (markAt sel i)
    | none => .fail ("unknown device id: " ++ gpu)
  else
    let (n, rest) := strtol10 gpu.data
    if rest = [] ∧ 0 ≤ n ∧ n < (available.length : Int) then .cont (markAt sel n.toNat)
    else .fail ("unknown device id: " ++ gpu)

/-- The token loop of `select_gpu_devices`. -/
def selectLoop (available : List NvcDevice) : Selection → List String → Except String Selection
  | sel, [] => .ok sel
  | sel, gpu :: rest =>
    match selectStep available sel gpu with
    | .cont s => selectLoop available s rest
    | .stop s => .ok s
    | .fail m => .error m

/-- Function `select_gpu_devices` as called from `configure_command`: the caller
zeroes a `size`-entry buffer first (`memset(gpus, 0, ...)`). -/
def select_gpu_devices (devs : Option String) (available : List NvcDevice) :
    Except String Selection :=
  selectLoop available (List.replicate available.length none) (strsepTokens devs)

/-! ## Requirement evaluator -/

/-- Installed driver metadata (`struct nvc_driver_info`): the two fields
consulted by the requirement predicates. -/
structure NvcDriverInfo where
  cuda_version : String
  kmod_version : String
deriving Repr, DecidableEq

/-- The `enum dsl_comparator`: the six comparators of a requirement
expression. -/
inductive DslComparator where
  | eq | neq | lt | leq | gt | geq
deriving Repr, DecidableEq

/-- Numeric value of one dotted-version component. -/
def compVal (cs : List Char) : Nat := digitsVal (cs.takeWhile isDigitC)

/-- Whether every remaining component is zero. -/
def allZero : List Nat → Bool
  | [] => true
  | a :: as => a = 0 && allZero as

/-- Modelled from the spec: version comparison is "dotted-numeric,
left-to-right, component-wise, with missing trailing components treated
as zero" (the implementation lives in `dsl.c`, which is not part of the
sources under study). -/
def versionCmp : List Nat → List Nat → Ordering
  | [], bs => if allZero bs then .eq else .lt
  | a :: as, [] => if allZero (a :: as) then .eq else .gt
  | a :: as, b :: bs =>
    if a < b then .lt else if b < a then .gt else versionCmp as bs

/-- Components of a dotted version string. -/
def versionComponents (s : String) : List Nat := (splitSep '.' s.data).map compVal

/-- Modelled from the spec: `dsl_compare_version(version, cmp, literal)`
tests the installed version against the literal under the comparator
(`dsl.c` is not part of the sources under study). -/
def dsl_compare_version (ver : String) (cmp : DslComparator) (lit : String) : Bool :=
  let o := versionCmp (versionComponents ver) (versionComponents lit)
  match cmp with
  | .eq => o = .eq
  | .neq => o ≠ .eq
  | .lt => o = .lt
  | .leq => o ≠ .gt
  | .gt => o = .gt
  | .geq => o ≠ .lt

/-- Predicate `check_cuda_version`: tests the expression against
`drv->cuda_version`. -/
def check_cuda_version (drv : NvcDriverInfo) (cmp : DslComparator) (version : String) : Bool :=
  dsl_compare_version drv.cuda_version cmp version

/-- Predicate `check_driver_version`: tests the expression against
`drv->kmod_version`. -/
def check_driver_version (drv : NvcDriverInfo) (cmp : DslComparator) (version : String) : Bool :=
  dsl_compare_version drv.kmod_version cmp version

/-- Modelled from the spec: split a requirement expression at its
comparator (`=`, `!=`, `<`, `<=`, `>`, `>=`); the expression parser lives
in `dsl.c`, which is not part of the sources under study. -/
def splitExpr : List Char → List Char → Option (List Char × DslComparator × List Char)
  | acc, '<' :: '=' :: rest => some (acc.reverse, .leq, rest)
  | acc, '<' :: rest => some (acc.reverse, .lt, rest)
  | acc, '>' :: '=' :: rest => some (acc.reverse, .geq, rest)
  | acc, '>' :: rest => some (acc.reverse, .gt, rest)
  | acc, '!' :: '=' :: rest => some (acc.reverse, .neq, rest)
  | acc, '=' :: rest => some (acc.reverse, .eq, rest)
  | acc, c :: rest => splitExpr (c :: acc) rest
  | _, [] => none

/-- The `rules` table of `nvc_cli.c`: predicate name to predicate
binding. -/
def rules : List (String × (NvcDriverInfo → DslComparator → String → Bool)) :=
  [("cuda", check_cuda_version), ("driver", check_driver_version)]

/-- Modelled from the spec: `dsl_evaluate(err, expr, data, rules, n)`
parses the expression, dispatches to the matching predicate by subject
name, and fails on malformed syntax, unknown predicate name, or a false
predicate (`dsl.c` is not part of the sources under study). Returns
`true` exactly when the requirement is met. -/
def dsl_evaluate (expr : String) (drv : NvcDriverInfo) : Bool :=
  match splitExpr [] expr.data with
  | none => false
  | some (subj, cmp, ver) =>
    match rules.find? (fun r => r.1 = String.mk subj) with
    | none => false
    | some r => r.2 drv cmp (String.mk ver)

/-- The requirement loop of `configure_command`
(`for (size_t i = 0; i < ctx->nreqs; ++i) ...`): evaluates requirements
in order, recording each evaluation performed and its outcome, and stops
at the first failure. Returns the evaluation trace and the overall
result. -/
def checkReqs (f : String → Bool) : List String → List (String × Bool) × Bool
  | [] => ([], true)
  | r :: rs =>
    if f r then
      ((r, true) :: (checkReqs f rs).1, (checkReqs f rs).2)
    else ([(r, false)], false)

/-! ## The `--require` option of `configure_parser` -/

/-- The capacity of `char *reqs[16]` in `struct context`
(`nitems(ctx->reqs)`). -/
def reqsCapacity : Nat := 16

/-- The requirement-list part of `struct context`: the fixed 16-entry
buffer and the `nreqs` counter. -/
structure ReqBuf where
  reqs : List String
  nreqs : Nat
deriving Repr, DecidableEq

/-- Zero initialisation of `struct context` restricted to the requirement list. -/
def ReqBuf.init : ReqBuf := ⟨List.replicate reqsCapacity "", 0⟩

/-- The `case 'r':` branch of `configure_parser`: reject when the buffer
is full (`errx` exits the process, so the configure workflow never
runs), otherwise store at position `nreqs` and bump the counter. -/
def addRequirement (c : ReqBuf) (arg : String) : Except String ReqBuf :=
  if c.nreqs ≥ reqsCapacity then .error "too many requirements"
  else .ok ⟨c.reqs.set c.nreqs arg, c.nreqs + 1⟩

/-- Processing a sequence of `--require` options left to right. -/
def addRequirements (c : ReqBuf) : List String → Except String ReqBuf
  | [] => .ok c
  | a :: rest =>
    match addRequirement c a with
    | .ok c2 => addRequirements c2 rest
    | .error m => .error m

/-! ## Orchestrator: `configure_command` -/

/-- The opaque resources managed by `configure_command`. -/
inductive Res where
  /-- `nvc = nvc_context_new()` / `nvc_context_free(nvc)` -/
  | nvcCtx
  /-- `cfg = nvc_container_config_new(...)` / `nvc_container_config_free(cfg)` -/
  | cfg
  /-- `nvc_init(nvc, ...)` / `nvc_shutdown(nvc)` -/
  | initState
  /-- `cnt = nvc_container_new(...)` / `nvc_container_free(cnt)` -/
  | cnt
  /-- `drv = nvc_driver_info_new(...)` / `nvc_driver_info_free(drv)` -/
  | drv
  /-- `dev = nvc_device_info_new(...)` / `nvc_device_info_free(dev)` -/
  | dev
deriving Repr, DecidableEq, Fintype

/-- Observable events of one `configure_command` run. -/
inductive Event where
  | acquire (r : Res)
  | release (r : Res)
  /-- one `dsl_evaluate` call and its outcome -/
  | evalReq (e : String) (ok : Bool)
  /-- `nvc_driver_mount(nvc, cnt, drv)` -/
  | mountDriver (ok : Bool)
  /-- `nvc_device_mount(nvc, cnt, gpus[i])` -/
  | mountDevice (i : Nat) (ok : Bool)
  /-- `nvc_ldcache_update(nvc, cnt)` -/
  | ldcacheUpdate (ok : Bool)
deriving Repr, DecidableEq

/-- Behaviour of the external collaborators for one run: which calls
succeed and what the discovery calls return. -/
structure World where
  ctxNewOk : Bool
  cfgNewOk : Bool
  initOk : Bool
  containerOk : Bool
  driverRes : Option NvcDriverInfo
  deviceRes : Option (List NvcDevice)
  driverMountOk : Bool
  deviceMountOk : Nat → Bool
  ldcacheOk : Bool

/-- The acquisition event of one allocation call: present when the call
succeeded, absent (NULL handle, nothing acquired) when it failed. -/
def acqIf (b : Bool) (r : Res) : List Event :=
  if b then [Event.acquire r] else []

/-- The `fail:` cleanup block, in source order:
`nvc_shutdown; nvc_container_free; nvc_device_info_free;
nvc_driver_info_free; nvc_container_config_free; nvc_context_free`.
Each call on a `NULL`/unacquired handle is a no-op and emits no release
event. -/
def cleanup (hasInit hasCnt hasDev hasDrv hasCfg hasNvc : Bool) : List Event :=
  (if hasInit then [Event.release .initState] else []) ++
  (if hasCnt then [Event.release .cnt] else []) ++
  (if hasDev then [Event.release .dev] else []) ++
  (if hasDrv then [Event.release .drv] else []) ++
  (if hasCfg then [Event.release .cfg] else []) ++
  (if hasNvc then [Event.release .nvcCtx] else [])

/-- The device-mount loop of `configure_command`
(`for (size_t i = 0; i < dev->ngpus; ++i) ...`): positions holding
`NULL` are skipped, each selected device is mounted, and the first
failing mount ends the loop. Returns the mount attempts performed (in
order) and whether the loop completed without failure. Position `i`
corresponds to ordinal `i` of the selection buffer. -/
def mountDevices (ok : Nat → Bool) : List (Option Nat) → Nat → List Event × Bool
  | [], _ => ([], true)
  | none :: rest, i => mountDevices ok rest (i + 1)
  | some _ :: rest, i =>
    if ok i then
      (Event.mountDevice i true :: (mountDevices ok rest (i + 1)).1,
        (mountDevices ok rest (i + 1)).2)
    else ([Event.mountDevice i false], false)

/-- Value `EXIT_SUCCESS`. -/
def exitSuccess : Int := 0

/-- Value `EXIT_FAILURE`. -/
def exitFailure : Int := 1

/-- Function `configure_command`: the full workflow, returning the process exit
status and the event trace. Mirrors the source control flow: every
failure jumps to the `fail:` cleanup block, and the success path falls
through it too. -/
def configure_command (w : World) (devs : Option String) (reqs : List String) :
    Int × List Event :=
  let a1 := acqIf w.ctxNewOk .nvcCtx ++ acqIf w.cfgNewOk .cfg
  if ¬(w.ctxNewOk ∧ w.cfgNewOk) then
    (exitFailure, a1 ++ cleanup false false false false w.cfgNewOk w.ctxNewOk)
  else if ¬w.initOk then
    (exitFailure, a1 ++ cleanup false false false false true true)
  else
    let a2 := a1 ++ [Event.acquire .initState]
    if ¬w.containerOk then
      (exitFailure, a2 ++ cleanup true false false false true true)
    else
      let a3 := a2 ++ [Event.acquire .cnt]
      match w.driverRes with
      | none => (exitFailure, a3 ++ cleanup true true false false true true)
      | some drvInfo =>
        let a4 := a3 ++ [Event.acquire .drv]
        match w.deviceRes with
        | none => (exitFailure, a4 ++ cleanup true true false true true true)
        | some available =>
          let a5 := a4 ++ [Event.acquire .dev]
          let rr := checkReqs (fun e => dsl_evaluate e drvInfo) reqs
          let a6 := a5 ++ rr.1.map (fun p => Event.evalReq p.1 p.2)
          if ¬rr.2 then (exitFailure, a6 ++ cleanup true true true true true true)
          else
            match select_gpu_devices devs available with
            | .error _ => (exitFailure, a6 ++ cleanup true true true true true true)
            | .ok sel =>
              let a7 := a6 ++ [Event.mountDriver w.driverMountOk]
              if ¬w.driverMountOk then
                (exitFailure, a7 ++ cleanup true true true true true true)
              else
                let mm := mountDevices w.deviceMountOk sel 0
                let a8 := a7 ++ mm.1
                if ¬mm.2 then (exitFailure, a8 ++ cleanup true true true true true true)
                else
                  let a9 := a8 ++ [Event.ldcacheUpdate w.ldcacheOk]
                  if ¬w.ldcacheOk then
                    (exitFailure, a9 ++ cleanup true true true true true true)
                  else (exitSuccess, a9 ++ cleanup true true true true true true)

/-- The acquisition events of a trace, in order. -/
def acquiresOf (t : List Event) : List Res :=
  t.filterMap (fun e => match e with | .acquire r => some r | _ => none)

/-- The release events of a trace, in order. -/
def releasesOf (t : List Event) : List Res :=
  t.filterMap (fun e => match e with | .release r => some r | _ => none)

/-- The device-mount attempts of a trace, in order: ordinal and outcome. -/
def deviceMountsOf (t : List Event) : List (Nat × Bool) :=
  t.filterMap (fun e => match e with | .mountDevice i ok => some (i, ok) | _ => none)

/-- What is mounted when the run ends: the driver (when its mount
succeeded) and every device whose mount succeeded. Nothing in
`configure_command` ever unmounts, so this is exactly the successful
mount events of the trace. -/
def mountedOf (t : List Event) : List Event :=
  t.filter (fun e =>
    match e with
    | .mountDriver ok => ok
    | .mountDevice _ ok => ok
    | _ => false)

/-! ## Concrete fixtures used by witnesses and counterexamples -/

/-- A three-device discovery list. -/
def devA : List NvcDevice := [⟨"GPU-1234abcd"⟩, ⟨"GPU-5678efgh"⟩, ⟨"GPU-9abc0000"⟩]

/-- The zeroed selection buffer matching `devA`. -/
def selA : Selection := List.replicate 3 none

/-- A driver-info fixture: CUDA 9.0, kernel module 384. -/
def drvA : NvcDriverInfo := ⟨"9.0", "384"⟩

/-- A world in which every external call succeeds. -/
def wA : World :=
  ⟨true, true, true, true, some drvA, some devA, true, fun _ => true, true⟩

/-- A world in which mounting device 1 fails and everything else
succeeds. -/
def wB : World :=
  ⟨true, true, true, true, some drvA, some devA, true, fun i => i != 1, true⟩

/-- A world in which the driver-metadata query (`nvc_driver_info_new`)
fails and every earlier call succeeds. -/
def wC : World :=
  ⟨true, true, true, true, none, some devA, true, fun _ => true, true⟩

/-- The order in which the `fail:` block of `configure_command` releases
the resources it holds. -/
def releaseOrder : List Res := [.initState, .cnt, .dev, .drv, .cfg, .nvcCtx]

/-- The ordinals of the selected entries of a selection buffer, position
`i0` onward. -/
def selPos : List (Option Nat) → Nat → List Nat
  | [], _ => []
  | none :: rest, i => selPos rest (i + 1)
  | some _ :: rest, i => i :: selPos rest (i + 1)

/-! ## Helper lemmas: the selector step on each kind of token -/

theorem selectStep_empty (available : List NvcDevice) (sel : Selection) :
    selectStep available sel "" = .cont sel := by
  simp [selectStep]

theorem selectStep_num (available : List NvcDevice) (sel : Selection) (gpu : String)
    (hne : gpu ≠ "") (hall : ciEq gpu.data ("all".data) = false)
    (hgpu : ciPfx ("GPU-".data) gpu.data = false) :
    selectStep available sel gpu =
      (if (strtol10 gpu.data).2 = [] ∧ 0 ≤ (strtol10 gpu.data).1 ∧
          (strtol10 gpu.data).1 < (available.length : Int) then
        StepOut.cont (markAt sel (strtol10 gpu.data).1.toNat)
      else StepOut.fail ("unknown device id: " ++ gpu)) := by
  rw [selectStep, if_neg hne, if_neg (by simp [hall]), if_neg (by simp [hgpu])]

theorem selectLoop_fail (available : List NvcDevice) (sel : Selection) (gpu : String)
    (toks : List String) (m : String) (h : selectStep available sel gpu = .fail m) :
    selectLoop available sel (gpu :: toks) = .error m := by
  simp [selectLoop, h]

theorem asciiLower_of_lt (c : Char) (h : c.toNat < 65) : asciiLower c = c := by
  rw [asciiLower, if_neg (by omega)]

theorem space_toNat_lt (c : Char) (h : isSpaceC c = true) : c.toNat < 65 := by
  simp [isSpaceC] at h
  omega

theorem digit_toNat (c : Char) (h : isDigitC c = true) : 48 ≤ c.toNat ∧ c.toNat ≤ 57 := by
  simpa [isDigitC] using h

theorem space_of_digit (c : Char) (h : isDigitC c = true) : isSpaceC c = false := by
  have := digit_toNat c h
  simp [isSpaceC]
  omega

theorem ciEq_all_eq_false (c : Char) (rest : List Char) (h : c.toNat < 65) :
    ciEq (c :: rest) ("all".data) = false := by
  have hne : ¬(asciiLower c = asciiLower 'a') := by
    rw [asciiLower_of_lt c h]
    have ha : asciiLower 'a' = 'a' := by decide
    rw [ha]
    intro hEq
    cases hEq
    exact absurd h (by decide)
  show ciEq (c :: rest) ('a' :: 'l' :: 'l' :: []) = false
  simp [ciEq, hne]

theorem ciPfx_gpu_eq_false (c : Char) (rest : List Char) (h : c.toNat < 65) :
    ciPfx ("GPU-".data) (c :: rest) = false := by
  have hne : ¬(asciiLower 'G' = asciiLower c) := by
    rw [asciiLower_of_lt c h]
    have hg : asciiLower 'G' = 'g' := by decide
    rw [hg]
    intro hEq
    cases hEq
    exact absurd h (by decide)
  show ciPfx ('G' :: 'P' :: 'U' :: '-' :: []) (c :: rest) = false
  simp [ciPfx, hne]

theorem takeWhile_of_all {α : Type} (p : α → Bool) (l : List α)
    (h : ∀ c ∈ l, p c = true) : l.takeWhile p = l := by
  induction l with
  | nil => rfl
  | cons a as ih =>
    rw [List.takeWhile_cons, if_pos (h a (by simp))]
    rw [ih (fun c hc => h c (by simp [hc]))]

theorem dropWhile_nil_of_all {α : Type} (p : α → Bool) (l : List α)
    (h : ∀ c ∈ l, p c = true) : l.dropWhile p = [] := by
  induction l with
  | nil => rfl
  | cons a as ih =>
    rw [List.dropWhile_cons, if_pos (h a (by simp))]
    exact ih (fun c hc => h c (by simp [hc]))

theorem dropWhile_append_all {α : Type} (p : α → Bool) (l r : List α)
    (h : ∀ c ∈ l, p c = true) : (l ++ r).dropWhile p = r.dropWhile p := by
  induction l with
  | nil => rfl
  | cons a as ih =>
    rw [List.cons_append, List.dropWhile_cons, if_pos (h a (by simp))]
    exact ih (fun c hc => h c (by simp [hc]))

theorem strtol10_lenient (ws sign ds : List Char)
    (hws : ∀ c ∈ ws, isSpaceC c = true) (hsign : sign = [] ∨ sign = ['+'])
    (hds : ds ≠ []) (hdig : ∀ c ∈ ds, isDigitC c = true)
    (hbound : (digitsVal ds : Int) ≤ longMax) :
    strtol10 (ws ++ (sign ++ ds)) = ((digitsVal ds : Int), []) := by
  have htake : ds.takeWhile isDigitC = ds := takeWhile_of_all isDigitC ds hdig
  have hdrop : ds.dropWhile isDigitC = [] := dropWhile_nil_of_all isDigitC ds hdig
  have hmaxmin : max longMin (min (digitsVal ds : Int) longMax) = (digitsVal ds : Int) := by
    rw [min_eq_left hbound]
    have h0 : (0 : Int) ≤ (digitsVal ds : Int) := Int.ofNat_nonneg _
    have hm : longMin ≤ (digitsVal ds : Int) := by
      rw [longMin]
      omega
    exact max_eq_right hm
  rcases hsign with rfl | rfl
  · cases ds with
    | nil => exact absurd rfl hds
    | cons d ds' =>
      have hd := digit_toNat d (hdig d (by simp))
      have h1 : List.dropWhile isSpaceC (ws ++ ([] ++ d :: ds')) = d :: ds' := by
        rw [List.nil_append, dropWhile_append_all isSpaceC ws _ hws,
          List.dropWhile_cons, if_neg (by simp [space_of_digit d (hdig d (by simp))])]
      have hdp : ¬((d :: ds').head? = some '+' ∨ (d :: ds').head? = some '-') := by
        rintro (hp | hp) <;>
          · simp only [List.head?_cons, Option.some.injEq] at hp
            cases hp
            exact absurd hd (by decide)
      have hnegf : decide ((d :: ds').head? = some '-') = false := by
        simp only [List.head?_cons, Option.some.injEq, decide_eq_false_iff_not]
        intro hp
        cases hp
        exact absurd hd (by decide)
      simp only [strtol10, h1, if_neg hdp, htake, hdrop]
      rw [if_neg hds, hnegf]
      rw [if_neg (by simp)]
      rw [hmaxmin]
  · have h1 : List.dropWhile isSpaceC (ws ++ (['+'] ++ ds)) = '+' :: ds := by
      rw [dropWhile_append_all isSpaceC ws _ hws, List.cons_append, List.nil_append,
        List.dropWhile_cons, if_neg (by simp [isSpaceC])]
    simp only [strtol10, h1, List.head?_cons]
    rw [if_pos (Or.inl trivial), List.tail_cons]
    simp only [htake, hdrop]
    rw [if_neg hds]
    have hnegf : decide ((some '+' : Option Char) = some '-') = false := by decide
    rw [hnegf, if_neg (by simp)]
    rw [hmaxmin]

/-- C2: for a token that is neither "all" nor "GPU-"-prefixed
(case-insensitively) and not empty: if `strtol` consumes the whole token
and yields a value in `[0, N)`, exactly that ordinal is marked (the
selection is the old one with only that entry set); otherwise the step
fails with an error naming that exact token and the whole selector call
returns that error, selecting nothing; empty tokens are skipped. -/
theorem index_token_selection (available : List NvcDevice) (sel : Selection) (gpu : String)
    (hne : gpu ≠ "") (hall : ciEq gpu.data ("all".data) = false)
    (hgpu : ciPfx ("GPU-".data) gpu.data = false) :
    (∀ n : Int, strtol10 gpu.data = (n, []) → 0 ≤ n → n < (available.length : Int) →
      selectStep available sel gpu = StepOut.cont (sel.set n.toNat (some n.toNat)))
    ∧ (∀ p : Int × List Char, strtol10 gpu.data = p →
        p.2 ≠ [] ∨ p.1 < 0 ∨ (available.length : Int) ≤ p.1 →
        selectStep available sel gpu = StepOut.fail ("unknown device id: " ++ gpu)
        ∧ ∀ toks, selectLoop available sel (gpu :: toks) =
            Except.error ("unknown device id: " ++ gpu))
    ∧ ∀ s : Selection, selectStep available s "" = StepOut.cont s := by
  refine ⟨?_, ?_, fun s => selectStep_empty available s⟩
  · intro n h h0 hlt
    rw [selectStep_num available sel gpu hne hall hgpu, h]
    simp only [h, markAt]
    rw [if_pos ⟨trivial, h0, hlt⟩]
  · intro p hp hbad
    have hcond : ¬((strtol10 gpu.data).2 = [] ∧ 0 ≤ (strtol10 gpu.data).1 ∧
        (strtol10 gpu.data).1 < (available.length : Int)) := by
      rw [hp]
      rintro ⟨h1, h2, h3⟩
      rcases hbad with hb | hb | hb
      · exact hb h1
      · omega
      · omega
    have hstep : selectStep available sel gpu =
        StepOut.fail ("unknown device id: " ++ gpu) := by
      rw [selectStep_num available sel gpu hne hall hgpu, if_neg hcond]
    exact ⟨hstep, fun toks => selectLoop_fail available sel gpu toks _ hstep⟩

/-- C2 witness: token "5" on a three-device list is rejected with an
error naming "5", and the selector call fails outright. -/
theorem index_token_selection_witness :
    selectStep devA selA "5" = StepOut.fail ("unknown device id: " ++ "5") ∧
    selectLoop devA selA ["5"] = Except.error ("unknown device id: " ++ "5") := by
  have h := (index_token_selection devA selA "5" (by decide) (by decide) (by decide)).2.1
    (strtol10 "5".data) rfl (by decide)
  exact ⟨h.1, h.2 []⟩

theorem setAll_succ (sel : Selection) (n : Nat) :
    setAll sel (n + 1) = markAt (setAll sel n) n := by
  rw [setAll, List.range_succ, List.foldl_append]
  rfl

theorem setAll_length (sel : Selection) (n : Nat) :
    (setAll sel n).length = sel.length := by
  induction n with
  | zero => rfl
  | succ m ih => rw [setAll_succ, markAt, List.length_set, ih]

theorem setAll_getElem?_lt (sel : Selection) (n i : Nat) (hi : i < n)
    (hl : i < sel.length) : (setAll sel n)[i]? = some (some i) := by
  induction n with
  | zero => omega
  | succ m ih =>
    rw [setAll_succ, markAt]
    rcases Nat.lt_succ_iff_lt_or_eq.mp hi with hlt | rfl
    · rw [List.getElem?_set_ne (by omega)]
      exact ih hlt
    · rw [List.getElem?_set_self]
      rw [setAll_length]
      exact hl

theorem setAll_getElem?_ge (sel : Selection) (n i : Nat) (hi : n ≤ i) :
    (setAll sel n)[i]? = sel[i]? := by
  induction n with
  | zero => rfl
  | succ m ih =>
    rw [setAll_succ, markAt, List.getElem?_set_ne (by omega)]
    exact ih (by omega)

theorem setAll_eq_range (sel : Selection) (n : Nat) (h : sel.length = n) :
    setAll sel n = (List.range n).map some := by
  apply List.ext_getElem?
  intro i
  by_cases hi : i < n
  · rw [setAll_getElem?_lt sel n i hi (by omega)]
    rw [List.getElem?_map, List.getElem?_range hi]
    rfl
  · rw [setAll_getElem?_ge sel n i (by omega)]
    rw [List.getElem?_eq_none (by omega), List.getElem?_eq_none (by simp; omega)]

/-- C3: a case-insensitive "all" token selects all N devices and stops
token processing: whatever tokens follow, the selector returns the full
selection and cannot fail on them. -/
theorem all_token_selects_all (available : List NvcDevice) (sel : Selection)
    (h : sel.length = available.length) (tok : String)
    (ht : ciEq tok.data ("all".data) = true) (rest : List String) :
    selectLoop available sel (tok :: rest) =
      Except.ok ((List.range available.length).map some) := by
  have hne : ¬(tok = "") := by
    intro he
    rw [he] at ht
    have hf : ciEq "".data ("all".data) = false := by decide
    rw [hf] at ht
    exact Bool.noConfusion ht
  have hstep : selectStep available sel tok =
      .stop ((List.range available.length).map some) := by
    rw [selectStep, if_neg hne, if_pos ht, setAll_eq_range sel available.length h]
  simp [selectLoop, hstep]

/-- C3 witness: "ALL" followed by a garbage token over three devices
selects all three and ignores the garbage. -/
theorem all_token_selects_all_witness :
    selectLoop devA selA ("ALL" :: ["junk"]) =
      Except.ok ((List.range devA.length).map some) :=
  all_token_selects_all devA selA (by decide) "ALL" (by decide) ["junk"]

theorem ciEq_all_of_gpu (gpu : List Char) (hp : ciPfx ("GPU-".data) gpu = true) :
    ciEq gpu ("all".data) = false := by
  cases gpu with
  | nil => exact absurd hp (by decide)
  | cons c r =>
    have hp' : ciPfx ('G' :: 'P' :: 'U' :: '-' :: []) (c :: r) = true := hp
    simp only [ciPfx, Bool.and_eq_true, decide_eq_true_eq] at hp'
    have hg : asciiLower c = 'g' := by
      have hG : asciiLower 'G' = 'g' := by decide
      rw [hG] at hp'
      exact hp'.1.symm
    have hne : ¬(asciiLower c = asciiLower 'a') := by
      rw [hg]
      decide
    show ciEq (c :: r) ('a' :: 'l' :: 'l' :: []) = false
    simp [ciEq, hne]

theorem gpu_tok_ne (gpu : String) (hp : ciPfx ("GPU-".data) gpu.data = true) :
    ¬(gpu = "") := by
  intro he
  rw [he] at hp
  exact absurd hp (by decide)

theorem findUuidMatch_eq_some (gpu : List Char) (ds : List NvcDevice) (i0 i : Nat)
    (d : NvcDevice) (hd : ds[i]? = some d) (hm : ciPfx gpu d.uuid.data = true)
    (hbefore : ∀ j e, j < i → ds[j]? = some e → ciPfx gpu e.uuid.data = false) :
    findUuidMatch gpu ds i0 = some (i0 + i) := by
  induction ds generalizing i0 i with
  | nil => simp at hd
  | cons a as ih =>
    cases i with
    | zero =>
      rw [List.getElem?_cons_zero, Option.some.injEq] at hd
      subst hd
      rw [findUuidMatch, if_pos hm, Nat.add_zero]
    | succ k =>
      have ha : ciPfx gpu a.uuid.data = false :=
        hbefore 0 a (by omega) List.getElem?_cons_zero
      rw [findUuidMatch, if_neg (by simp [ha])]
      have hd' : as[k]? = some d := by
        rw [List.getElem?_cons_succ] at hd
        exact hd
      have hb' : ∀ j e, j < k → as[j]? = some e → ciPfx gpu e.uuid.data = false := by
        intro j e hj he
        exact hbefore (j + 1) e (by omega) (by rw [List.getElem?_cons_succ]; exact he)
      rw [ih (i0 + 1) k hd' hb']
      congr 1
      omega

theorem findUuidMatch_eq_none (gpu : List Char) (ds : List NvcDevice) (i0 : Nat)
    (h : ∀ (i : Nat) (d : NvcDevice), ds[i]? = some d → ciPfx gpu d.uuid.data = false) :
    findUuidMatch gpu ds i0 = none := by
  induction ds generalizing i0 with
  | nil => rfl
  | cons a as ih =>
    rw [findUuidMatch, if_neg (by simp [h 0 a List.getElem?_cons_zero])]
    exact ih (i0 + 1) (fun i d hd =>
      h (i + 1) d (by rw [List.getElem?_cons_succ]; exact hd))

/-- C4: a token with case-insensitive prefix "GPU-" marks the earliest
device (in discovery order) whose UUID starts case-insensitively with
the whole token; if no device UUID has the token as a prefix, the step
fails with an error naming the token and the selector call returns that
error. -/
theorem uuid_token_earliest_match (available : List NvcDevice) (sel : Selection)
    (gpu : String) (hp : ciPfx ("GPU-".data) gpu.data = true) :
    (∀ (i : Nat) (d : NvcDevice), available[i]? = some d →
      ciPfx gpu.data d.uuid.data = true →
      (∀ (j : Nat) (e : NvcDevice), j < i → available[j]? = some e →
        ciPfx gpu.data e.uuid.data = false) →
      selectStep available sel gpu = StepOut.cont (markAt sel i))
    ∧ ((∀ (i : Nat) (d : NvcDevice), available[i]? = some d →
        ciPfx gpu.data d.uuid.data = false) →
      selectStep available sel gpu = StepOut.fail ("unknown device id: " ++ gpu)
      ∧ ∀ toks, selectLoop available sel (gpu :: toks) =
          Except.error ("unknown device id: " ++ gpu)) := by
  have hne := gpu_tok_ne gpu hp
  have hall := ciEq_all_of_gpu gpu.data hp
  constructor
  · intro i d hd hm hbefore
    have hfind : findUuidMatch gpu.data available 0 = some i := by
      have hs := findUuidMatch_eq_some gpu.data available 0 i d hd hm hbefore
      simpa using hs
    rw [selectStep, if_neg hne, if_neg (by simp [hall]), if_pos hp, hfind]
  · intro hnone
    have hfind := findUuidMatch_eq_none gpu.data available 0 hnone
    have hstep : selectStep available sel gpu =
        StepOut.fail ("unknown device id: " ++ gpu) := by
      rw [selectStep, if_neg hne, if_neg (by simp [hall]), if_pos hp, hfind]
    exact ⟨hstep, fun toks => selectLoop_fail available sel gpu toks _ hstep⟩

/-- C4 witness: token "gpu-5678" on the three-device list marks device 1,
whose UUID "GPU-5678efgh" it prefixes case-insensitively, and device 0
does not match. -/
theorem uuid_token_earliest_match_witness :
    selectStep devA selA "gpu-5678" = StepOut.cont (markAt selA 1) := by
  apply (uuid_token_earliest_match devA selA "gpu-5678" (by decide)).1 1
    ⟨"GPU-5678efgh"⟩ (by decide) (by decide)
  intro j e hj he
  have hj0 : j = 0 := by omega
  subst hj0
  have he' : some (⟨"GPU-1234abcd"⟩ : NvcDevice) = some e := by
    rw [← he]
    decide
  rw [Option.some.injEq] at he'
  subst he'
  decide

/-- C10: because index tokens go through `strtol` in base 10, a token of
optional leading whitespace, an optional leading '+', and decimal digits
whose value is in `[0, N)` is accepted and marks that ordinal — for
example " 1" and "+2" — even though it is not a plain digit string;
trailing non-digit characters (e.g. "1x") still reject the token. -/
theorem lenient_index_tokens :
    (∀ (available : List NvcDevice) (sel : Selection) (ws sign ds : String),
      (∀ c ∈ ws.data, isSpaceC c = true) → (sign = "" ∨ sign = "+") →
      ds ≠ "" → (∀ c ∈ ds.data, isDigitC c = true) →
      digitsVal ds.data < available.length → (digitsVal ds.data : Int) ≤ longMax →
      selectStep available sel (ws ++ sign ++ ds) =
        StepOut.cont (sel.set (digitsVal ds.data) (some (digitsVal ds.data))))
    ∧ selectStep devA selA " 1" = StepOut.cont (selA.set 1 (some 1))
    ∧ selectStep devA selA "+2" = StepOut.cont (selA.set 2 (some 2))
    ∧ selectStep devA selA "1x" = StepOut.fail ("unknown device id: " ++ "1x") := by
  refine ⟨?_, by decide, by decide, by decide⟩
  intro available sel ws sign ds hws hsign hds hdig hlt hbound
  have hdata : (ws ++ sign ++ ds).data = ws.data ++ (sign.data ++ ds.data) := by
    rw [String.data_append, String.data_append, List.append_assoc]
  have hsign' : sign.data = [] ∨ sign.data = ['+'] := by
    rcases hsign with rfl | rfl
    · exact Or.inl rfl
    · exact Or.inr rfl
  have hds' : ds.data ≠ [] := by
    intro h
    exact hds (String.ext h)
  have hstr : strtol10 ((ws ++ sign ++ ds).data) = ((digitsVal ds.data : Int), []) := by
    rw [hdata]
    exact strtol10_lenient ws.data sign.data ds.data hws hsign' hds' hdig hbound
  have hhead : ∃ c r, (ws ++ sign ++ ds).data = c :: r ∧ c.toNat < 65 := by
    rw [hdata]
    cases hw : ws.data with
    | cons c r =>
      exact ⟨c, r ++ (sign.data ++ ds.data), by simp,
        space_toNat_lt c (hws c (by rw [hw]; simp))⟩
    | nil =>
      rcases hsign' with hs | hs
      · rw [hs, List.nil_append, List.nil_append]
        cases hd : ds.data with
        | nil => exact absurd hd hds'
        | cons c r =>
          refine ⟨c, r, rfl, ?_⟩
          have := digit_toNat c (hdig c (by rw [hd]; simp))
          omega
      · rw [hs, List.nil_append, List.cons_append]
        exact ⟨'+', [] ++ ds.data, rfl, by decide⟩
  obtain ⟨c, r, hcr, hc⟩ := hhead
  have hne : (ws ++ sign ++ ds) ≠ "" := by
    intro h
    rw [h] at hcr
    exact List.noConfusion hcr
  have hall : ciEq (ws ++ sign ++ ds).data ("all".data) = false := by
    rw [hcr]; exact ciEq_all_eq_false c r hc
  have hgpu : ciPfx ("GPU-".data) (ws ++ sign ++ ds).data = false := by
    rw [hcr]; exact ciPfx_gpu_eq_false c r hc
  rw [selectStep_num available sel _ hne hall hgpu, hstr]
  rw [if_pos ⟨rfl, Int.ofNat_nonneg _, Int.ofNat_lt.mpr hlt⟩]
  simp [markAt]

/-- C10 witness: the general statement applied to the token " 1" over a
three-device list (whitespace "", sign absent, digits "1"). -/
theorem lenient_index_tokens_witness :
    selectStep devA selA (" " ++ "" ++ "1") =
      StepOut.cont (selA.set (digitsVal "1".data) (some (digitsVal "1".data))) := by
  exact lenient_index_tokens.1 devA selA " " "" "1" (by decide) (Or.inl rfl)
    (by decide) (by decide) (by decide) (by decide)

theorem markAt_inv (sel : Selection) (k : Nat)
    (h : ∀ (i v : Nat), sel[i]? = some (some v) → v = i) :
    ∀ (i v : Nat), (markAt sel k)[i]? = some (some v) → v = i := by
  intro i v hi
  rw [markAt] at hi
  by_cases hik : i = k
  · subst hik
    rcases Nat.lt_or_ge i sel.length with hlt | hge
    · rw [List.getElem?_set_self hlt] at hi
      rw [Option.some.injEq, Option.some.injEq] at hi
      exact hi.symm
    · rw [List.getElem?_eq_none (by rw [List.length_set]; omega)] at hi
      exact Option.noConfusion hi
  · rw [List.getElem?_set_ne (fun he => hik he.symm)] at hi
    exact h i v hi

theorem setAll_inv (sel : Selection) (n : Nat)
    (h : ∀ (i v : Nat), sel[i]? = some (some v) → v = i) :
    ∀ (i v : Nat), (setAll sel n)[i]? = some (some v) → v = i := by
  intro i v hi
  by_cases hin : i < n
  · by_cases hil : i < sel.length
    · rw [setAll_getElem?_lt sel n i hin hil] at hi
      rw [Option.some.injEq, Option.some.injEq] at hi
      exact hi.symm
    · rw [List.getElem?_eq_none (by rw [setAll_length]; omega)] at hi
      exact Option.noConfusion hi
  · rw [setAll_getElem?_ge sel n i (by omega)] at hi
    exact h i v hi

theorem selectStep_shape (available : List NvcDevice) (sel : Selection) (gpu : String) :
    selectStep available sel gpu = .cont sel ∨
    (∃ k, selectStep available sel gpu = .cont (markAt sel k)) ∨
    selectStep available sel gpu = .stop (setAll sel available.length) ∨
    (∃ m, selectStep available sel gpu = .fail m) := by
  by_cases h1 : gpu = ""
  · exact Or.inl (by rw [selectStep, if_pos h1])
  by_cases h2 : ciEq gpu.data ("all".data) = true
  · refine Or.inr (Or.inr (Or.inl ?_))
    rw [selectStep, if_neg h1, if_pos h2]
  by_cases h3 : ciPfx ("GPU-".data) gpu.data = true
  · cases hf : findUuidMatch gpu.data available 0 with
    | some k =>
      refine Or.inr (Or.inl ⟨k, ?_⟩)
      rw [selectStep, if_neg h1, if_neg h2, if_pos h3, hf]
    | none =>
      refine Or.inr (Or.inr (Or.inr ⟨"unknown device id: " ++ gpu, ?_⟩))
      rw [selectStep, if_neg h1, if_neg h2, if_pos h3, hf]
  · have hallf : ciEq gpu.data ("all".data) = false := by simpa using h2
    have hgpuf : ciPfx ("GPU-".data) gpu.data = false := by simpa using h3
    by_cases h4 : (strtol10 gpu.data).2 = [] ∧ 0 ≤ (strtol10 gpu.data).1 ∧
        (strtol10 gpu.data).1 < (available.length : Int)
    · refine Or.inr (Or.inl ⟨(strtol10 gpu.data).1.toNat, ?_⟩)
      rw [selectStep_num available sel gpu h1 hallf hgpuf, if_pos h4]
    · refine Or.inr (Or.inr (Or.inr ⟨"unknown device id: " ++ gpu, ?_⟩))
      rw [selectStep_num available sel gpu h1 hallf hgpuf, if_neg h4]

/-- The loop invariant of `select_gpu_devices`: the buffer length is
fixed, and a marked entry at position `i` always points at device `i`. -/
def SelInv (n : Nat) (sel : Selection) : Prop :=
  sel.length = n ∧ ∀ (i v : Nat), sel[i]? = some (some v) → v = i

theorem selectStep_inv (available : List NvcDevice) (sel : Selection) (gpu : String)
    (h : SelInv available.length sel) :
    (∀ s, selectStep available sel gpu = .cont s → SelInv available.length s) ∧
    (∀ s, selectStep available sel gpu = .stop s → SelInv available.length s) := by
  have hmark : ∀ k, SelInv available.length (markAt sel k) :=
    fun k => ⟨by rw [markAt, List.length_set]; exact h.1, markAt_inv sel k h.2⟩
  have hall : SelInv available.length (setAll sel available.length) :=
    ⟨by rw [setAll_length]; exact h.1, setAll_inv sel available.length h.2⟩
  rcases selectStep_shape available sel gpu with hs | ⟨k, hs⟩ | hs | ⟨m, hs⟩ <;>
    rw [hs] <;> constructor <;> intro s he <;>
      first
      | exact StepOut.noConfusion he
      | (rw [show sel = s from StepOut.cont.inj he] at h; exact h)
      | (rw [← show markAt sel k = s from StepOut.cont.inj he]; exact hmark k)
      | (rw [← show setAll sel available.length = s from StepOut.stop.inj he]; exact hall)

theorem selectLoop_inv (available : List NvcDevice) (toks : List String) :
    ∀ sel, SelInv available.length sel →
      ∀ s, selectLoop available sel toks = .ok s → SelInv available.length s := by
  induction toks with
  | nil =>
    intro sel h s he
    rw [selectLoop] at he
    rw [← Except.ok.inj he]
    exact h
  | cons gpu rest ih =>
    intro sel h s he
    rw [selectLoop] at he
    cases hs : selectStep available sel gpu with
    | cont s2 =>
      rw [hs] at he
      exact ih s2 ((selectStep_inv available sel gpu h).1 s2 hs) s he
    | stop s2 =>
      rw [hs] at he
      rw [← Except.ok.inj he]
      exact (selectStep_inv available sel gpu h).2 s2 hs
    | fail m =>
      rw [hs] at he
      exact Except.noConfusion he

/-- C7: when the selector succeeds, the selection has one entry per
discovered device, every marked entry's ordinal is strictly below the
device count and references exactly the device at that ordinal, and
unmarked entries are absent (`none`, so any entry is either absent or
the ordinal's own device). -/
theorem selection_within_bounds (devs : Option String) (available : List NvcDevice)
    (sel : Selection) (h : select_gpu_devices devs available = .ok sel) :
    sel.length = available.length ∧
    ∀ (i v : Nat), sel[i]? = some (some v) → i < available.length ∧ v = i := by
  have hinit : SelInv available.length (List.replicate available.length none) := by
    constructor
    · exact List.length_replicate _ _
    · intro i v hi
      rcases Nat.lt_or_ge i available.length with hlt | hge
      · rw [List.getElem?_replicate, if_pos hlt] at hi
        rw [Option.some.injEq] at hi
        exact Option.noConfusion hi
      · rw [List.getElem?_eq_none (by rw [List.length_replicate]; omega)] at hi
        exact Option.noConfusion hi
  have hinv := selectLoop_inv available (strsepTokens devs)
    (List.replicate available.length none) hinit sel h
  refine ⟨hinv.1, fun i v hi => ⟨?_, hinv.2 i v hi⟩⟩
  by_contra hge
  rw [List.getElem?_eq_none (by rw [hinv.1]; omega)] at hi
  exact Option.noConfusion hi

/-- C7 witness: spec "0,2" over three devices yields a selection whose
marked entries are ordinals 0 and 2, each referencing its own device. -/
theorem selection_within_bounds_witness :
    ([some 0, none, some 2] : Selection).length = devA.length ∧
    ∀ (i v : Nat), ([some 0, none, some 2] : Selection)[i]? = some (some v) →
      i < devA.length ∧ v = i :=
  selection_within_bounds (some "0,2") devA [some 0, none, some 2] rfl

/-! ## Trace projection lemmas -/

@[simp]
theorem acquiresOf_append (a b : List Event) :
    acquiresOf (a ++ b) = acquiresOf a ++ acquiresOf b := by
  rw [acquiresOf, acquiresOf, acquiresOf, List.filterMap_append]

@[simp]
theorem releasesOf_append (a b : List Event) :
    releasesOf (a ++ b) = releasesOf a ++ releasesOf b := by
  rw [releasesOf, releasesOf, releasesOf, List.filterMap_append]

@[simp]
theorem deviceMountsOf_append (a b : List Event) :
    deviceMountsOf (a ++ b) = deviceMountsOf a ++ deviceMountsOf b := by
  rw [deviceMountsOf, deviceMountsOf, deviceMountsOf, List.filterMap_append]

@[simp]
theorem mountedOf_append (a b : List Event) :
    mountedOf (a ++ b) = mountedOf a ++ mountedOf b := by
  rw [mountedOf, mountedOf, mountedOf, List.filter_append]

theorem acquiresOf_cleanup (a b c d e f : Bool) :
    acquiresOf (cleanup a b c d e f) = [] := by
  cases a <;> cases b <;> cases c <;> cases d <;> cases e <;> cases f <;> rfl

theorem deviceMountsOf_cleanup (a b c d e f : Bool) :
    deviceMountsOf (cleanup a b c d e f) = [] := by
  cases a <;> cases b <;> cases c <;> cases d <;> cases e <;> cases f <;> rfl

theorem mountedOf_cleanup (a b c d e f : Bool) :
    mountedOf (cleanup a b c d e f) = [] := by
  cases a <;> cases b <;> cases c <;> cases d <;> cases e <;> cases f <;> rfl

theorem acquiresOf_evalReqs (l : List (String × Bool)) :
    acquiresOf (l.map (fun p => Event.evalReq p.1 p.2)) = [] := by
  induction l with
  | nil => rfl
  | cons p r ih => simp [acquiresOf, List.filterMap_cons, ih]

theorem releasesOf_evalReqs (l : List (String × Bool)) :
    releasesOf (l.map (fun p => Event.evalReq p.1 p.2)) = [] := by
  induction l with
  | nil => rfl
  | cons p r ih => simp [releasesOf, List.filterMap_cons, ih]

theorem deviceMountsOf_evalReqs (l : List (String × Bool)) :
    deviceMountsOf (l.map (fun p => Event.evalReq p.1 p.2)) = [] := by
  induction l with
  | nil => rfl
  | cons p r ih => simp [deviceMountsOf, List.filterMap_cons, ih]

theorem mountedOf_evalReqs (l : List (String × Bool)) :
    mountedOf (l.map (fun p => Event.evalReq p.1 p.2)) = [] := by
  induction l with
  | nil => rfl
  | cons p r ih => simpa [mountedOf, List.filter_cons] using ih

theorem acquiresOf_mountDevices (ok : Nat → Bool) (sel : List (Option Nat)) (i : Nat) :
    acquiresOf (mountDevices ok sel i).1 = [] := by
  induction sel generalizing i with
  | nil => rfl
  | cons o rest ih =>
    cases o with
    | none => exact ih (i + 1)
    | some k =>
      rw [mountDevices]
      by_cases hk : ok i = true
      · rw [if_pos hk]
        simpa [acquiresOf, List.filterMap_cons] using ih (i + 1)
      · rw [if_neg hk]
        rfl

theorem releasesOf_mountDevices (ok : Nat → Bool) (sel : List (Option Nat)) (i : Nat) :
    releasesOf (mountDevices ok sel i).1 = [] := by
  induction sel generalizing i with
  | nil => rfl
  | cons o rest ih =>
    cases o with
    | none => exact ih (i + 1)
    | some k =>
      rw [mountDevices]
      by_cases hk : ok i = true
      · rw [if_pos hk]
        simpa [releasesOf, List.filterMap_cons] using ih (i + 1)
      · rw [if_neg hk]
        rfl

@[simp]
theorem acquiresOf_nil : acquiresOf [] = [] := rfl

@[simp]
theorem releasesOf_nil : releasesOf [] = [] := rfl

@[simp]
theorem deviceMountsOf_nil : deviceMountsOf [] = [] := rfl

@[simp]
theorem mountedOf_nil : mountedOf [] = [] := rfl

@[simp]
theorem acquiresOf_cons_acquire (r : Res) (t : List Event) :
    acquiresOf (Event.acquire r :: t) = r :: acquiresOf t := rfl

@[simp]
theorem releasesOf_cons_acquire (r : Res) (t : List Event) :
    releasesOf (Event.acquire r :: t) = releasesOf t := rfl

@[simp]
theorem deviceMountsOf_cons_acquire (r : Res) (t : List Event) :
    deviceMountsOf (Event.acquire r :: t) = deviceMountsOf t := rfl

@[simp]
theorem mountedOf_cons_acquire (r : Res) (t : List Event) :
    mountedOf (Event.acquire r :: t) = mountedOf t := rfl

@[simp]
theorem acquiresOf_cons_release (r : Res) (t : List Event) :
    acquiresOf (Event.release r :: t) = acquiresOf t := rfl

@[simp]
theorem releasesOf_cons_release (r : Res) (t : List Event) :
    releasesOf (Event.release r :: t) = r :: releasesOf t := rfl

@[simp]
theorem deviceMountsOf_cons_release (r : Res) (t : List Event) :
    deviceMountsOf (Event.release r :: t) = deviceMountsOf t := rfl

@[simp]
theorem mountedOf_cons_release (r : Res) (t : List Event) :
    mountedOf (Event.release r :: t) = mountedOf t := rfl

@[simp]
theorem acquiresOf_cons_evalReq (e : String) (b : Bool) (t : List Event) :
    acquiresOf (Event.evalReq e b :: t) = acquiresOf t := rfl

@[simp]
theorem releasesOf_cons_evalReq (e : String) (b : Bool) (t : List Event) :
    releasesOf (Event.evalReq e b :: t) = releasesOf t := rfl

@[simp]
theorem deviceMountsOf_cons_evalReq (e : String) (b : Bool) (t : List Event) :
    deviceMountsOf (Event.evalReq e b :: t) = deviceMountsOf t := rfl

@[simp]
theorem mountedOf_cons_evalReq (e : String) (b : Bool) (t : List Event) :
    mountedOf (Event.evalReq e b :: t) = mountedOf t := rfl

@[simp]
theorem acquiresOf_cons_mountDriver (b : Bool) (t : List Event) :
    acquiresOf (Event.mountDriver b :: t) = acquiresOf t := rfl

@[simp]
theorem releasesOf_cons_mountDriver (b : Bool) (t : List Event) :
    releasesOf (Event.mountDriver b :: t) = releasesOf t := rfl

@[simp]
theorem deviceMountsOf_cons_mountDriver (b : Bool) (t : List Event) :
    deviceMountsOf (Event.mountDriver b :: t) = deviceMountsOf t := rfl

@[simp]
theorem mountedOf_cons_mountDriver (b : Bool) (t : List Event) :
    mountedOf (Event.mountDriver b :: t) =
      if b then Event.mountDriver b :: mountedOf t else mountedOf t := by
  cases b <;> rfl

@[simp]
theorem acquiresOf_cons_mountDevice (i : Nat) (b : Bool) (t : List Event) :
    acquiresOf (Event.mountDevice i b :: t) = acquiresOf t := rfl

@[simp]
theorem releasesOf_cons_mountDevice (i : Nat) (b : Bool) (t : List Event) :
    releasesOf (Event.mountDevice i b :: t) = releasesOf t := rfl

@[simp]
theorem deviceMountsOf_cons_mountDevice (i : Nat) (b : Bool) (t : List Event) :
    deviceMountsOf (Event.mountDevice i b :: t) = (i, b) :: deviceMountsOf t := rfl

@[simp]
theorem mountedOf_cons_mountDevice (i : Nat) (b : Bool) (t : List Event) :
    mountedOf (Event.mountDevice i b :: t) =
      if b then Event.mountDevice i b :: mountedOf t else mountedOf t := by
  cases b <;> rfl

@[simp]
theorem acquiresOf_cons_ldcache (b : Bool) (t : List Event) :
    acquiresOf (Event.ldcacheUpdate b :: t) = acquiresOf t := rfl

@[simp]
theorem releasesOf_cons_ldcache (b : Bool) (t : List Event) :
    releasesOf (Event.ldcacheUpdate b :: t) = releasesOf t := rfl

@[simp]
theorem deviceMountsOf_cons_ldcache (b : Bool) (t : List Event) :
    deviceMountsOf (Event.ldcacheUpdate b :: t) = deviceMountsOf t := rfl

@[simp]
theorem mountedOf_cons_ldcache (b : Bool) (t : List Event) :
    mountedOf (Event.ldcacheUpdate b :: t) = mountedOf t := rfl

@[simp]
theorem acquiresOf_ite (c : Prop) [Decidable c] (x y : List Event) :
    acquiresOf (if c then x else y) = if c then acquiresOf x else acquiresOf y :=
  apply_ite acquiresOf c x y

@[simp]
theorem releasesOf_ite (c : Prop) [Decidable c] (x y : List Event) :
    releasesOf (if c then x else y) = if c then releasesOf x else releasesOf y :=
  apply_ite releasesOf c x y

@[simp]
theorem deviceMountsOf_ite (c : Prop) [Decidable c] (x y : List Event) :
    deviceMountsOf (if c then x else y) =
      if c then deviceMountsOf x else deviceMountsOf y :=
  apply_ite deviceMountsOf c x y

@[simp]
theorem mountedOf_ite (c : Prop) [Decidable c] (x y : List Event) :
    mountedOf (if c then x else y) = if c then mountedOf x else mountedOf y :=
  apply_ite mountedOf c x y

@[simp]
theorem snd_ite {A B : Type} (c : Prop) [Decidable c] (x y : A × B) :
    (if c then x else y).2 = if c then x.2 else y.2 :=
  apply_ite Prod.snd c x y

@[simp]
theorem fst_ite {A B : Type} (c : Prop) [Decidable c] (x y : A × B) :
    (if c then x else y).1 = if c then x.1 else y.1 :=
  apply_ite Prod.fst c x y

@[simp]
theorem acquiresOf_acqIf (b : Bool) (r : Res) :
    acquiresOf (acqIf b r) = if b then [r] else [] := by
  cases b <;> rfl

@[simp]
theorem releasesOf_acqIf (b : Bool) (r : Res) : releasesOf (acqIf b r) = [] := by
  cases b <;> rfl

@[simp]
theorem deviceMountsOf_acqIf (b : Bool) (r : Res) :
    deviceMountsOf (acqIf b r) = [] := by
  cases b <;> rfl

@[simp]
theorem mountedOf_acqIf (b : Bool) (r : Res) : mountedOf (acqIf b r) = [] := by
  cases b <;> rfl

set_option maxHeartbeats 2000000 in
/-- C8: with no device specification (NULL devices string) the selector
succeeds with nothing selected, the mount loop over an all-`none`
selection mounts nothing, and consequently no `configure_command` run
with a `none` spec ever attempts a device mount. -/
theorem no_spec_selects_nothing :
    (∀ available : List NvcDevice,
      select_gpu_devices none available =
        Except.ok (List.replicate available.length none))
    ∧ (∀ (ok : Nat → Bool) (n i : Nat),
      mountDevices ok (List.replicate n none) i = ([], true))
    ∧ (∀ (w : World) (reqs : List String),
      deviceMountsOf (configure_command w none reqs).2 = []) := by
  have h1 : ∀ available : List NvcDevice,
      select_gpu_devices none available =
        Except.ok (List.replicate available.length none) := fun _ => rfl
  have h2 : ∀ (ok : Nat → Bool) (n i : Nat),
      mountDevices ok (List.replicate n none) i = ([], true) := by
    intro ok n
    induction n with
    | zero => intro i; rfl
    | succ m ih =>
      intro i
      rw [List.replicate_succ]
      exact ih (i + 1)
  refine ⟨h1, h2, ?_⟩
  intro w reqs
  rw [configure_command]
  repeat' split
  all_goals try simp_all [deviceMountsOf_cleanup, deviceMountsOf_evalReqs, h1]
  all_goals subst_vars
  all_goals try simp_all [deviceMountsOf_cleanup, deviceMountsOf_evalReqs, h2]

/-- C5: requirement expressions are evaluated in the supplied order and
evaluation stops at the first failing one: the evaluation trace is
exactly the passing prefix plus the first failure, so nothing after the
failure is ever evaluated; and the spec example — ["cuda>=9.0",
"driver<300"] against cuda 9.0 / driver 384 — evaluates both, the second
failing. -/
theorem requirements_stop_at_first_failure :
    (∀ (f : String → Bool) (pre post : List String) (r : String),
      (∀ x ∈ pre, f x = true) → f r = false →
      checkReqs f (pre ++ r :: post) =
        (pre.map (fun x => (x, true)) ++ [(r, false)], false))
    ∧ checkReqs (fun e => dsl_evaluate e drvA) ["cuda>=9.0", "driver<300"] =
        ([("cuda>=9.0", true), ("driver<300", false)], false) := by
  refine ⟨?_, by decide⟩
  intro f pre post r hpre hr
  induction pre with
  | nil =>
    rw [List.nil_append, checkReqs, if_neg (by rw [hr]; exact Bool.noConfusion)]
    simp
  | cons a as ih =>
    have ha : f a = true := hpre a (by simp)
    rw [List.cons_append, checkReqs, if_pos ha,
      ih (fun x hx => hpre x (by simp [hx]))]
    simp

/-- C5 witness: the general stop-at-first-failure statement applied to a
concrete evaluator where "ok" passes and "bad" fails, with a requirement
"never" after the failure. -/
theorem requirements_stop_at_first_failure_witness :
    checkReqs (fun e => e = "ok") ["ok", "bad", "never"] =
      ([("ok", true), ("bad", false)], false) := by
  have h := requirements_stop_at_first_failure.1 (fun e => e = "ok")
    ["ok"] ["never"] "bad" (by decide) (by decide)
  simpa using h

theorem set_append_len {α : Type} (p t : List α) (x a : α) :
    (p ++ x :: t).set p.length a = p ++ a :: t := by
  induction p with
  | nil => rfl
  | cons b bs ih =>
    show b :: ((bs ++ x :: t).set bs.length a) = b :: (bs ++ a :: t)
    rw [ih]

theorem addRequirement_ok (c : ReqBuf) (arg : String) (h : c.nreqs < reqsCapacity) :
    addRequirement c arg = Except.ok ⟨c.reqs.set c.nreqs arg, c.nreqs + 1⟩ := by
  rw [addRequirement, if_neg (by omega)]

theorem addRequirement_full (c : ReqBuf) (arg : String) (h : reqsCapacity ≤ c.nreqs) :
    addRequirement c arg = Except.error "too many requirements" := by
  rw [addRequirement, if_pos h]

theorem addRequirements_fill (args : List String) :
    ∀ p : List String, p.length ≤ reqsCapacity →
      addRequirements ⟨p ++ List.replicate (reqsCapacity - p.length) "", p.length⟩ args =
        (if p.length + args.length ≤ reqsCapacity then
          Except.ok ⟨(p ++ args) ++
            List.replicate (reqsCapacity - (p.length + args.length)) "",
            p.length + args.length⟩
        else Except.error "too many requirements") := by
  induction args with
  | nil =>
    intro p hp
    rw [addRequirements, if_pos (by simp only [List.length_nil, Nat.add_zero]; exact hp)]
    simp
  | cons a rest ih =>
    intro p hp
    rw [addRequirements]
    by_cases hfull : p.length = reqsCapacity
    · rw [addRequirement_full _ a (by simp [hfull])]
      rw [if_neg (by simp only [List.length_cons]; omega)]
    · have hlt : p.length < reqsCapacity := by omega
      rw [addRequirement_ok _ a (by simpa using hlt)]
      have hrep : List.replicate (reqsCapacity - p.length) "" =
          "" :: List.replicate (reqsCapacity - (p.length + 1)) "" := by
        rw [← List.replicate_succ]
        congr 1
        omega
      have hbuf : (⟨(p ++ List.replicate (reqsCapacity - p.length) "").set
            (⟨p ++ List.replicate (reqsCapacity - p.length) "", p.length⟩ : ReqBuf).nreqs a,
          (⟨p ++ List.replicate (reqsCapacity - p.length) "", p.length⟩ : ReqBuf).nreqs + 1⟩ :
            ReqBuf) =
          ⟨(p ++ [a]) ++ List.replicate (reqsCapacity - (p ++ [a]).length) "",
            (p ++ [a]).length⟩ := by
      -- placeholder
        rw [ReqBuf.mk.injEq]
        constructor
        · show (p ++ List.replicate (reqsCapacity - p.length) "").set p.length a =
            (p ++ [a]) ++ List.replicate (reqsCapacity - (p ++ [a]).length) ""
          rw [hrep, set_append_len, List.append_assoc, List.singleton_append,
            List.length_append, List.length_singleton]
        · show p.length + 1 = (p ++ [a]).length
          rw [List.length_append, List.length_singleton]
      rw [hbuf]
      show addRequirements ⟨(p ++ [a]) ++
          List.replicate (reqsCapacity - (p ++ [a]).length) "", (p ++ [a]).length⟩ rest = _
      rw [ih (p ++ [a]) (by rw [List.length_append, List.length_singleton]; omega)]
      by_cases hcc : p.length + (a :: rest).length ≤ reqsCapacity
      · have hcc2 : (p ++ [a]).length + rest.length ≤ reqsCapacity := by
          rw [List.length_append, List.length_singleton]
          simp only [List.length_cons] at hcc
          omega
        rw [if_pos hcc2, if_pos hcc]
        rw [Except.ok.injEq, ReqBuf.mk.injEq]
        constructor
        · simp only [List.append_assoc, List.singleton_append, List.length_append,
            List.length_singleton, List.length_cons, List.length_nil, Nat.zero_add]
          rw [show p.length + 1 + rest.length = p.length + (rest.length + 1) from by omega]
        · rw [List.length_append, List.length_singleton, List.length_cons]
          omega
      · have hcc2 : ¬((p ++ [a]).length + rest.length ≤ reqsCapacity) := by
          rw [List.length_append, List.length_singleton]
          simp only [List.length_cons] at hcc
          omega
        rw [if_neg hcc2, if_neg hcc]

/-- C9: the requirement list is a fixed 16-entry buffer: an accepted
`--require` writes only at an index strictly below 16 and never grows the
buffer; up to 16 requirement arguments are all accepted in order; a 17th
is rejected with the diagnostic "too many requirements" (a fatal exit, so
the workflow never runs). -/
theorem requirement_bound_sixteen :
    reqsCapacity = 16
    ∧ (∀ (c : ReqBuf) (arg : String) (c2 : ReqBuf),
        addRequirement c arg = .ok c2 →
        c.nreqs < reqsCapacity ∧ c2.nreqs = c.nreqs + 1 ∧
          c2.reqs.length = c.reqs.length)
    ∧ (∀ args : List String, args.length ≤ reqsCapacity →
        addRequirements ReqBuf.init args =
          Except.ok ⟨args ++ List.replicate (reqsCapacity - args.length) "",
            args.length⟩)
    ∧ (∀ args : List String, reqsCapacity < args.length →
        addRequirements ReqBuf.init args = Except.error "too many requirements") := by
  have hinit : (ReqBuf.init : ReqBuf) =
      ⟨([] : List String) ++
        List.replicate (reqsCapacity - List.length ([] : List String)) "",
        List.length ([] : List String)⟩ := rfl
  refine ⟨rfl, ?_, ?_, ?_⟩
  · intro c arg c2 h
    rw [addRequirement] at h
    by_cases hfull : c.nreqs ≥ reqsCapacity
    · rw [if_pos hfull] at h
      exact Except.noConfusion h
    · rw [if_neg hfull] at h
      have h2 := Except.ok.inj h
      rw [← h2]
      exact ⟨by omega, rfl, List.length_set c.reqs c.nreqs arg⟩
  · intro args hlen
    rw [hinit, addRequirements_fill args [] (by simp),
      if_pos (by simpa using hlen)]
    simp
  · intro args hlen
    rw [hinit, addRequirements_fill args [] (by simp),
      if_neg (by simp only [List.length_nil, Nat.zero_add]; omega)]

/-- C9 witness: the exactly-16 and the 17th-rejected cases on concrete
argument lists, plus the per-option bound check on a concrete buffer. -/
theorem requirement_bound_sixteen_witness :
    addRequirements ReqBuf.init (List.replicate 16 "r") =
      Except.ok ⟨List.replicate 16 "r" ++
        List.replicate (reqsCapacity - (List.replicate 16 "r").length) "",
        (List.replicate 16 "r").length⟩
    ∧ addRequirements ReqBuf.init (List.replicate 17 "r") =
        Except.error "too many requirements" :=
  ⟨(requirement_bound_sixteen.2.2.1 (List.replicate 16 "r") (by decide)),
   (requirement_bound_sixteen.2.2.2 (List.replicate 17 "r") (by decide))⟩

theorem releasesOf_cleanup (a b c d e f : Bool) :
    releasesOf (cleanup a b c d e f) =
      (if a then [Res.initState] else []) ++ (if b then [Res.cnt] else []) ++
      (if c then [Res.dev] else []) ++ (if d then [Res.drv] else []) ++
      (if e then [Res.cfg] else []) ++ (if f then [Res.nvcCtx] else []) := by
  cases a <;> cases b <;> cases c <;> cases d <;> cases e <;> cases f <;> rfl

/-- C1 counterexample: in the run where the driver-metadata query fails
(a failing phase, exit status is failure), the resources acquired in the
earlier phases — context, config, init state, container — are released
by the `fail:` block as init state, container, config, context, which is
not the reverse of their acquisition order (container, init state,
config, context). -/
theorem release_order_not_reverse :
    (configure_command wC none []).1 = exitFailure
    ∧ releasesOf (configure_command wC none []).2 ≠
        (acquiresOf (configure_command wC none []).2).reverse := by
  constructor
  · decide
  · decide

set_option maxHeartbeats 1000000 in
/-- C1 amended: on every run, whichever phase fails, there is one flag
per resource saying whether it was acquired; the acquisitions happen in
the fixed order context, config, init state, container, driver metadata,
device metadata (restricted to the acquired ones), and the releases
happen exactly once each in the fixed order of the `fail:` block — init
state, container, device metadata, driver metadata, config, context —
restricted to the same flags (so an absent/null resource is never
released: its free call is a no-op), rather than in exact reverse
acquisition order. -/
theorem release_discipline_amended (w : World) (devs : Option String)
    (reqs : List String) :
    ∃ a b c d e f : Bool,
      acquiresOf (configure_command w devs reqs).2 =
        (if f then [Res.nvcCtx] else []) ++ (if e then [Res.cfg] else []) ++
        (if a then [Res.initState] else []) ++ (if b then [Res.cnt] else []) ++
        (if d then [Res.drv] else []) ++ (if c then [Res.dev] else [])
      ∧ releasesOf (configure_command w devs reqs).2 =
        (if a then [Res.initState] else []) ++ (if b then [Res.cnt] else []) ++
        (if c then [Res.dev] else []) ++ (if d then [Res.drv] else []) ++
        (if e then [Res.cfg] else []) ++ (if f then [Res.nvcCtx] else []) := by
  rw [configure_command]
  repeat' split
  · exact ⟨false, false, false, false, w.cfgNewOk, w.ctxNewOk,
      by simp_all [releasesOf_cleanup, acquiresOf_cleanup, acquiresOf_evalReqs, releasesOf_evalReqs,
        acquiresOf_mountDevices, releasesOf_mountDevices],
      by simp_all [releasesOf_cleanup, acquiresOf_cleanup, acquiresOf_evalReqs, releasesOf_evalReqs,
        acquiresOf_mountDevices, releasesOf_mountDevices]⟩
  · exact ⟨false, false, false, false, true, true,
      by simp_all [releasesOf_cleanup, acquiresOf_cleanup, acquiresOf_evalReqs, releasesOf_evalReqs,
        acquiresOf_mountDevices, releasesOf_mountDevices],
      by simp_all [releasesOf_cleanup, acquiresOf_cleanup, acquiresOf_evalReqs, releasesOf_evalReqs,
        acquiresOf_mountDevices, releasesOf_mountDevices]⟩
  · exact ⟨true, false, false, false, true, true,
      by simp_all [releasesOf_cleanup, acquiresOf_cleanup, acquiresOf_evalReqs, releasesOf_evalReqs,
        acquiresOf_mountDevices, releasesOf_mountDevices],
      by simp_all [releasesOf_cleanup, acquiresOf_cleanup, acquiresOf_evalReqs, releasesOf_evalReqs,
        acquiresOf_mountDevices, releasesOf_mountDevices]⟩
  · exact ⟨true, true, false, false, true, true,
      by simp_all [releasesOf_cleanup, acquiresOf_cleanup, acquiresOf_evalReqs, releasesOf_evalReqs,
        acquiresOf_mountDevices, releasesOf_mountDevices],
      by simp_all [releasesOf_cleanup, acquiresOf_cleanup, acquiresOf_evalReqs, releasesOf_evalReqs,
        acquiresOf_mountDevices, releasesOf_mountDevices]⟩
  · exact ⟨true, true, false, true, true, true,
      by simp_all [releasesOf_cleanup, acquiresOf_cleanup, acquiresOf_evalReqs, releasesOf_evalReqs,
        acquiresOf_mountDevices, releasesOf_mountDevices],
      by simp_all [releasesOf_cleanup, acquiresOf_cleanup, acquiresOf_evalReqs, releasesOf_evalReqs,
        acquiresOf_mountDevices, releasesOf_mountDevices]⟩
  · exact ⟨true, true, true, true, true, true,
      by simp_all [releasesOf_cleanup, acquiresOf_cleanup, acquiresOf_evalReqs, releasesOf_evalReqs,
        acquiresOf_mountDevices, releasesOf_mountDevices],
      by simp_all [releasesOf_cleanup, acquiresOf_cleanup, acquiresOf_evalReqs, releasesOf_evalReqs,
        acquiresOf_mountDevices, releasesOf_mountDevices]⟩
  · exact ⟨true, true, true, true, true, true,
      by simp_all [releasesOf_cleanup, acquiresOf_cleanup, acquiresOf_evalReqs, releasesOf_evalReqs,
        acquiresOf_mountDevices, releasesOf_mountDevices],
      by simp_all [releasesOf_cleanup, acquiresOf_cleanup, acquiresOf_evalReqs, releasesOf_evalReqs,
        acquiresOf_mountDevices, releasesOf_mountDevices]⟩
  · exact ⟨true, true, true, true, true, true,
      by simp_all [releasesOf_cleanup, acquiresOf_cleanup, acquiresOf_evalReqs, releasesOf_evalReqs,
        acquiresOf_mountDevices, releasesOf_mountDevices],
      by simp_all [releasesOf_cleanup, acquiresOf_cleanup, acquiresOf_evalReqs, releasesOf_evalReqs,
        acquiresOf_mountDevices, releasesOf_mountDevices]⟩
  · exact ⟨true, true, true, true, true, true,
      by simp_all [releasesOf_cleanup, acquiresOf_cleanup, acquiresOf_evalReqs, releasesOf_evalReqs,
        acquiresOf_mountDevices, releasesOf_mountDevices],
      by simp_all [releasesOf_cleanup, acquiresOf_cleanup, acquiresOf_evalReqs, releasesOf_evalReqs,
        acquiresOf_mountDevices, releasesOf_mountDevices]⟩
theorem selPos_le (sel : List (Option Nat)) :
    ∀ i, ∀ j ∈ selPos sel i, i ≤ j := by
  induction sel with
  | nil => intro i j hj; simp [selPos] at hj
  | cons o rest ih =>
    intro i j hj
    cases o with
    | none =>
      have := ih (i + 1) j hj
      omega
    | some v =>
      rw [selPos] at hj
      rcases List.mem_cons.mp hj with rfl | hj2
      · exact Nat.le_refl j
      · have := ih (i + 1) j hj2
        omega

theorem mountDevices_fail_eq (ok : Nat → Bool) (sel : List (Option Nat)) :
    ∀ i k, k ∈ selPos sel i → ok k = false →
      (∀ j ∈ selPos sel i, j < k → ok j = true) →
      mountDevices ok sel i =
        (((selPos sel i).filter (fun j => decide (j < k))).map
            (fun j => Event.mountDevice j true) ++ [Event.mountDevice k false],
          false) := by
  induction sel with
  | nil => intro i k hk; simp [selPos] at hk
  | cons o rest ih =>
    intro i k hk hkf hbefore
    cases o with
    | none =>
      show mountDevices ok rest (i + 1) = _
      exact ih (i + 1) k hk hkf hbefore
    | some v =>
      rw [selPos] at hk hbefore ⊢
      by_cases hoi : ok i = true
      · have hik : ¬(k = i) := by
          intro he
          rw [he] at hkf
          rw [hkf] at hoi
          exact Bool.noConfusion hoi
        have hk2 : k ∈ selPos rest (i + 1) := by
          rcases List.mem_cons.mp hk with he | h2
          · exact absurd he hik
          · exact h2
        have hiklt : i < k := by
          have := selPos_le rest (i + 1) k hk2
          omega
        rw [mountDevices, if_pos hoi,
          ih (i + 1) k hk2 hkf (fun j hj hjk => hbefore j (List.mem_cons_of_mem i hj) hjk)]
        rw [List.filter_cons, if_pos (by simpa using hiklt)]
        simp
      · have hoif : ok i = false := by simpa using hoi
        have hk0 : k = i := by
          by_contra hne
          have hk2 : k ∈ selPos rest (i + 1) := by
            rcases List.mem_cons.mp hk with he | h2
            · exact absurd he hne
            · exact h2
          have hik : i < k := by
            have := selPos_le rest (i + 1) k hk2
            omega
          have := hbefore i (List.mem_cons_self i _) hik
          rw [this] at hoif
          exact Bool.noConfusion hoif
        subst hk0
        rw [mountDevices, if_neg (by simp [hoif])]
        have hfil : (k :: selPos rest (k + 1)).filter (fun j => decide (j < k)) = [] := by
          rw [List.filter_cons, if_neg (by simp)]
          rw [List.filter_eq_nil_iff]
          intro a ha
          have := selPos_le rest (k + 1) a ha
          simp
          omega
        rw [hfil]
        simp

theorem deviceMountsOf_mountDevices_chain (ok : Nat → Bool) (sel : List (Option Nat)) :
    ∀ i, List.Chain' (· < ·) ((deviceMountsOf (mountDevices ok sel i).1).map Prod.fst)
      ∧ ∀ x ∈ (deviceMountsOf (mountDevices ok sel i).1).map Prod.fst, i ≤ x := by
  induction sel with
  | nil =>
    intro i
    exact ⟨List.chain'_nil, by simp [mountDevices]⟩
  | cons o rest ih =>
    intro i
    cases o with
    | none =>
      refine ⟨(ih (i + 1)).1, fun x hx => ?_⟩
      have := (ih (i + 1)).2 x hx
      omega
    | some v =>
      by_cases hoi : ok i = true
      · rw [mountDevices, if_pos hoi]
        simp only [deviceMountsOf_cons_mountDevice, List.map_cons]
        constructor
        · rw [List.chain'_cons']
          refine ⟨fun y hy => ?_, (ih (i + 1)).1⟩
          have := (ih (i + 1)).2 y (List.mem_of_mem_head? hy)
          omega
        · intro x hx
          rcases List.mem_cons.mp hx with rfl | h2
          · exact Nat.le_refl x
          · have := (ih (i + 1)).2 x h2
            omega
      · rw [mountDevices, if_neg hoi]
        exact ⟨List.chain'_singleton _, by simp⟩

theorem deviceMountsOf_map_mount (l : List Nat) (b : Bool) :
    deviceMountsOf (l.map (fun j => Event.mountDevice j b)) =
      l.map (fun j => (j, b)) := by
  induction l with
  | nil => rfl
  | cons j rest ih => simp [ih]

theorem mountedOf_map_mount (l : List Nat) :
    mountedOf (l.map (fun j => Event.mountDevice j true)) =
      l.map (fun j => Event.mountDevice j true) := by
  induction l with
  | nil => rfl
  | cons j rest ih => simp [ih]

set_option maxHeartbeats 1000000 in
/-- C6: device mounts happen in ascending ordinal order in every run; and
in a run whose first device-mount failure is at ordinal `k`, the whole
operation fails, the loop performed exactly the mounts of the selected
ordinals below `k` (in order) plus the failed attempt at `k`, and nothing
mounted before the failure — the driver mount and the earlier device
mounts — is rolled back: they are all still mounted when the run ends. -/
theorem device_mounts_ascending_and_abort :
    (∀ (w : World) (devs : Option String) (reqs : List String),
      List.Chain' (· < ·)
        ((deviceMountsOf (configure_command w devs reqs).2).map Prod.fst))
    ∧ (∀ (w : World) (devs : Option String) (reqs : List String)
        (drvInfo : NvcDriverInfo) (available : List NvcDevice) (sel : Selection)
        (k : Nat),
      w.ctxNewOk = true → w.cfgNewOk = true → w.initOk = true →
      w.containerOk = true → w.driverRes = some drvInfo →
      w.deviceRes = some available →
      (checkReqs (fun e => dsl_evaluate e drvInfo) reqs).2 = true →
      select_gpu_devices devs available = Except.ok sel →
      w.driverMountOk = true →
      k ∈ selPos sel 0 → w.deviceMountOk k = false →
      (∀ j ∈ selPos sel 0, j < k → w.deviceMountOk j = true) →
      (configure_command w devs reqs).1 = exitFailure
      ∧ deviceMountsOf (configure_command w devs reqs).2 =
          ((selPos sel 0).filter (fun j => decide (j < k))).map
            (fun j => (j, true)) ++ [(k, false)]
      ∧ mountedOf (configure_command w devs reqs).2 =
          Event.mountDriver true ::
            ((selPos sel 0).filter (fun j => decide (j < k))).map
              (fun j => Event.mountDevice j true)) := by
  constructor
  · intro w devs reqs
    rw [configure_command]
    repeat' split
    all_goals try simp_all [deviceMountsOf_cleanup, deviceMountsOf_evalReqs]
    all_goals repeat' split
    all_goals try simp_all [deviceMountsOf_cleanup, deviceMountsOf_evalReqs]
    all_goals
      first
      | exact List.chain'_nil
      | exact (deviceMountsOf_mountDevices_chain w.deviceMountOk _ 0).1
  · intro w devs reqs drvInfo available sel k h1 h2 h3 h4 hdrv hdev hreq hsel hdm
      hk hkf hb
    have hmm := mountDevices_fail_eq w.deviceMountOk sel 0 k hk hkf hb
    rw [configure_command]
    simp only [h1, h2, h3, h4, hdrv, hdev, hsel, hdm, hmm, hreq]
    simp only [not_true, and_self, if_false, ite_false, ite_true, not_false_iff]
    refine ⟨by simp, ?_, ?_⟩ <;>
      simp [deviceMountsOf_cleanup, mountedOf_cleanup, deviceMountsOf_evalReqs,
        mountedOf_evalReqs, deviceMountsOf_map_mount, mountedOf_map_mount]

/-- C6 witness: in the world where mounting device 1 fails, spec "all"
over three devices mounts device 0, fails at device 1, aborts with
failure, and leaves the driver and device 0 mounted. -/
theorem device_mounts_ascending_and_abort_witness :
    (configure_command wB (some "all") []).1 = exitFailure
    ∧ deviceMountsOf (configure_command wB (some "all") []).2 =
        ((selPos [some 0, some 1, some 2] 0).filter (fun j => decide (j < 1))).map
          (fun j => (j, true)) ++ [(1, false)]
    ∧ mountedOf (configure_command wB (some "all") []).2 =
        Event.mountDriver true ::
          ((selPos [some 0, some 1, some 2] 0).filter (fun j => decide (j < 1))).map
            (fun j => Event.mountDevice j true) :=
  device_mounts_ascending_and_abort.2 wB (some "all") [] drvA devA
    [some 0, some 1, some 2] 1 rfl rfl rfl rfl rfl rfl rfl rfl rfl
    (by decide) (by decide) (by decide)

end NvcCli
